import Mathlib

/-!
Shallow embedding of rsig (rioki's signal library, src/rsig/rsig.h).

The C++ library consists of four cooperating abstractions:

* `signal_state` (the registry): a mutex, a monotone counter `last_id`, and a
  `std::map<size_t, std::function<void(Args...)>>` of observers.  We model the
  map as an association list sorted by key (std::map iterates in ascending key
  order); the mutex is immaterial in the sequential model since every C++
  operation holds it for its full duration.
* `connection`: a value holding a `connection_id` and a `std::weak_ptr` to the
  registry's state.
* `signal`: the emitter handle, holding a `std::shared_ptr` to the state.
* `slot`: a move-only RAII wrapper around one `connection`.

Shared/weak ownership is modelled by a `World`: a finite association list of
live registries keyed by an abstract address (`Nat`).  A `weak_ptr` is an
`Option Nat`: `none` is the empty weak pointer, `some r` refers to registry
address `r`; `lock` succeeds exactly when `r` is still present in the world.
Destroying a registry is removing its entry from the world.

C++ exceptions are modelled by `Except`: each operation returns its result
together with the (possibly mutated) state, so that mutation-then-throw order
is preserved exactly as in the source.

Callbacks are opaque values of a type parameter `F`; an empty `std::function`
is `none : Option F`.  `emit` is modelled as producing the invocation trace:
the list of `(identifier, callback, argument)` triples in iteration order.
-/

namespace Rsig

/-- The two exception types thrown by the library:
`std::invalid_argument("Signal observer is invalid.")` from `connect` and
`std::runtime_error("Invalid connection id.")` from `disconnect`. -/
inductive SigError where
  | invalidArgument
  | invalidConnectionId
deriving DecidableEq, Repr

/-! ### std::map as a sorted association list -/

/-- `std::map::find` / `count`-style lookup on an association list. -/
def mapFind {V : Type} (k : Nat) : List (Nat × V) → Option V
  | [] => none
  | (k', v') :: rest => if k = k' then some v' else mapFind k rest

/-- `observers.emplace(id, fun)`: insert keyed by `k`, keeping the ascending
key order; like `std::map::emplace`, an existing key is left unchanged. -/
def mapEmplace {V : Type} (k : Nat) (v : V) : List (Nat × V) → List (Nat × V)
  | [] => [(k, v)]
  | (k', v') :: rest =>
      if k < k' then (k, v) :: (k', v') :: rest
      else if k = k' then (k', v') :: rest
      else (k', v') :: mapEmplace k v rest

/-- `observers.erase(id)`: remove the entry with key `k` (keys are unique in a
`std::map`) and return the number of erased entries together with the
remaining list. -/
def mapErase {V : Type} (k : Nat) : List (Nat × V) → Nat × List (Nat × V)
  | [] => (0, [])
  | (k', v') :: rest =>
      if k = k' then (1, rest)
      else
        let p := mapErase k rest
        (p.1, (k', v') :: p.2)

/-- Replace the value stored under an existing key. -/
def mapUpdate {V : Type} (k : Nat) (v : V) : List (Nat × V) → List (Nat × V)
  | [] => []
  | (k', v') :: rest => if k = k' then (k, v) :: rest else (k', v') :: mapUpdate k v rest

/-! ### signal_state -/

/-- `signal_state<Args...>`: `last_id` counter plus the observer map.  The
mutex is not represented: every member function of the C++ class holds it for
its whole body, so the sequential semantics is unaffected. -/
structure signal_state (F : Type) where
  last_id : Nat := 0
  observers : List (Nat × F) := []
deriving DecidableEq, Repr

/-- `signal_state::connect`: throw `invalid_argument` on an empty
`std::function`, otherwise pre-increment `last_id`, emplace the callback under
the new identifier and return it. -/
def signal_state.connect {F : Type} (s : signal_state F) (f : Option F) :
    Except SigError Nat × signal_state F :=
  match f with
  | none => (.error .invalidArgument, s)
  | some g =>
      let id := s.last_id + 1
      (.ok id, { last_id := id, observers := mapEmplace id g s.observers })

/-- The modulus of `size_t` (64-bit): `connection_id = size_t`, so `++last_id`
wraps at `2 ^ 64`. -/
def USIZE : Nat := 2 ^ 64

/-- `signal_state::connect` with the `size_t` nature of `connection_id` made
explicit: `++last_id` on a 64-bit unsigned counter computes
`(last_id + 1) % 2^64`.  `signal_state.connect` above idealizes the counter
as unbounded, which coincides with this exact semantics as long as the
counter has not reached `2^64 - 1` (see `connectU_eq_connect`); the wrap
matters for the identifier-reuse invariant over arbitrarily long operation
sequences, so that analysis uses this definition. -/
def signal_state.connectU {F : Type} (s : signal_state F) (f : Option F) :
    Except SigError Nat × signal_state F :=
  match f with
  | none => (.error .invalidArgument, s)
  | some g =>
      let id := (s.last_id + 1) % USIZE
      (.ok id, { last_id := id, observers := mapEmplace id g s.observers })

/-- `signal_state::disconnect`: erase the identifier; if the erased count is
not 1, throw `runtime_error("Invalid connection id.")`.  The erase happens
before the throw, exactly as in the source. -/
def signal_state.disconnect {F : Type} (s : signal_state F) (id : Nat) :
    Except SigError Unit × signal_state F :=
  let p := mapErase id s.observers
  let s' : signal_state F := { s with observers := p.2 }
  if p.1 ≠ 1 then (.error .invalidConnectionId, s') else (.ok (), s')

/-- `signal_state::emit`: invoke every stored callback in map iteration order
(ascending identifier) with the given arguments, then return
`observers.size()`.  The first component is the invocation trace:
`(identifier, callback, argument)` for each call made. -/
def signal_state.emit {F A : Type} (s : signal_state F) (a : A) :
    List (Nat × F × A) × Nat :=
  (s.observers.map (fun kv => (kv.1, kv.2, a)), s.observers.length)

/-! ### World: shared/weak ownership of registries -/

/-- The set of live registries, keyed by an abstract address.  A registry is
destroyed by removing its entry (the last `shared_ptr` owner released it). -/
structure World (F : Type) where
  regs : List (Nat × signal_state F)
deriving DecidableEq, Repr

/-- Dereference a live registry address. -/
def World.find {F : Type} (w : World F) (r : Nat) : Option (signal_state F) :=
  mapFind r w.regs

/-- Store back the mutated registry state at a live address. -/
def World.update {F : Type} (w : World F) (r : Nat) (s : signal_state F) : World F :=
  ⟨mapUpdate r s w.regs⟩

/-- `weak_ptr::lock()`: `none` for the empty weak pointer, and for `some r`
succeeds (yielding the address and the pointed-to state) exactly when the
registry is still alive in the world. -/
def World.lock {F : Type} (w : World F) (ws : Option Nat) :
    Option (Nat × signal_state F) :=
  match ws with
  | none => none
  | some r => (w.find r).map (fun s => (r, s))

/-! ### connection -/

/-- `connection`: identifier (default `0`) plus weak pointer to the state
(default empty). -/
structure connection where
  id : Nat := 0
  wstate : Option Nat := none
deriving DecidableEq, Repr

/-- The value-initialized `connection{}`. -/
def connection.empty : connection := {}

/-- `connection::disconnect`: lock the weak pointer; on failure do nothing.
On success call `state->disconnect(id)` — if that throws, the exception
propagates before the two clearing assignments run; otherwise clear `wstate`
and `id`.  Returns (exception result, connection after, world after). -/
def connection.disconnect {F : Type} (c : connection) (w : World F) :
    Except SigError Unit × connection × World F :=
  match World.lock w c.wstate with
  | none => (.ok (), c, w)
  | some (r, s) =>
      let p := signal_state.disconnect s c.id
      let w' := w.update r p.2
      match p.1 with
      | .error e => (.error e, c, w')
      | .ok _ => (.ok (), { id := 0, wstate := none }, w')

/-! ### signal (the emitter handle) -/

/-- `signal<Args...>`: holds a `shared_ptr` to its state.  `none` models the
moved-from handle (null `shared_ptr`), on which every member function's
`assert(state)` would fire; all theorems below assume a live handle. -/
structure signal where
  state : Option Nat
deriving DecidableEq, Repr

/-- `signal::connect`: `state->connect(fun)` on this signal's own registry,
wrapping the returned identifier with a weak pointer to that registry.  The
`none` branches model the `assert(state)` precondition (a live handle's
`shared_ptr` guarantees the registry exists). -/
def signal.connect {F : Type} (sig : signal) (f : Option F) (w : World F) :
    Except SigError connection × World F :=
  match sig.state with
  | none => (.error .invalidArgument, w)
  | some r =>
      match w.find r with
      | none => (.error .invalidArgument, w)
      | some s =>
          let p := signal_state.connect s f
          let w' := w.update r p.2
          match p.1 with
          | .error e => (.error e, w')
          | .ok id => (.ok { id := id, wstate := some r }, w')

/-- `signal::disconnect(con)`: calls `state->disconnect(con.id)` on this
signal's own registry.  The connection's `wstate` field is never read. -/
def signal.disconnect {F : Type} (sig : signal) (con : connection) (w : World F) :
    Except SigError Unit × World F :=
  match sig.state with
  | none => (.ok (), w)
  | some r =>
      match w.find r with
      | none => (.ok (), w)
      | some s =>
          let p := signal_state.disconnect s con.id
          (p.1, w.update r p.2)

/-! ### slot -/

/-- `slot`: move-only RAII wrapper owning one `connection`
(default-constructed empty). -/
structure slot where
  conn : connection := connection.empty
deriving DecidableEq, Repr

/-- `slot::slot(slot&&)`: `conn(std::exchange(other.conn, {}))` — returns the
new slot and the moved-from source. -/
def slot.moveCtor (other : slot) : slot × slot :=
  ({ conn := other.conn }, { conn := connection.empty })

/-- `slot::disconnect`: delegates to `conn.disconnect()` (which mutates
`conn`). -/
def slot.disconnect {F : Type} (s : slot) (w : World F) :
    Except SigError Unit × slot × World F :=
  let p := s.conn.disconnect w
  (p.1, { conn := p.2.1 }, p.2.2)

/-- `slot::operator=(slot&&)`: first `disconnect()` the currently held
connection (an exception there propagates before adoption), then
`conn = std::exchange(other.conn, {})`.  Returns (result, target after,
source after, world after). -/
def slot.moveAssign {F : Type} (target other : slot) (w : World F) :
    Except SigError Unit × slot × slot × World F :=
  let p := slot.disconnect target w
  match p.1 with
  | .error e => (.error e, p.2.1, other, p.2.2)
  | .ok _ => (.ok (), { conn := other.conn }, { conn := connection.empty }, p.2.2)

/-- `slot::~slot()`: calls `disconnect()`. -/
def slot.dtor {F : Type} (s : slot) (w : World F) : Except SigError Unit × World F :=
  let p := slot.disconnect s w
  (p.1, p.2.2)

/-! ### Well-formedness invariant of a registry -/

/-- Invariant maintained by the registry: observer keys are strictly ascending
(the `std::map` order) and bounded by `last_id`. -/
def WF {F : Type} (s : signal_state F) : Prop :=
  List.Sorted (· < ·) (s.observers.map Prod.fst) ∧
    ∀ k ∈ s.observers.map Prod.fst, k ≤ s.last_id

instance {F : Type} (s : signal_state F) : Decidable (WF s) := by
  unfold WF; infer_instance

/-! ### Operation sequences on one registry (for the identifier invariant) -/

/-- One registry-level operation. -/
inductive Op (F A : Type) where
  | connect (f : Option F)
  | disconnect (id : Nat)
  | emit (a : A)

/-- Run a sequence of operations on a registry, collecting the identifiers
returned by the successful `connect` calls, in order.  `connect` uses the
exact `size_t` counter semantics (`connectU`); `emit` holds the lock for its
whole body and does not mutate the registry. -/
def runOps {F A : Type} (s : signal_state F) : List (Op F A) → signal_state F × List Nat
  | [] => (s, [])
  | Op.connect f :: rest =>
      let p := signal_state.connectU s f
      let q := runOps p.2 rest
      match p.1 with
      | .ok id => (q.1, id :: q.2)
      | .error _ => (q.1, q.2)
  | Op.disconnect i :: rest => runOps (signal_state.disconnect s i).2 rest
  | Op.emit _ :: rest => runOps s rest

/-- The number of `connect` operations carrying a non-empty callback in a
sequence (each such operation increments the counter exactly once). -/
def numConnects {F A : Type} : List (Op F A) → Nat
  | [] => 0
  | Op.connect (some _) :: rest => numConnects rest + 1
  | Op.connect none :: rest => numConnects rest
  | Op.disconnect _ :: rest => numConnects rest
  | Op.emit _ :: rest => numConnects rest

/-! ### Lemmas about the map operations -/

lemma mapErase_fst_ne_one_iff {V : Type} (k : Nat) (l : List (Nat × V)) :
    (mapErase k l).1 ≠ 1 ↔ mapFind k l = none := by
  induction l with
  | nil => simp [mapErase, mapFind]
  | cons p rest ih =>
    obtain ⟨k', v'⟩ := p
    by_cases hk : k = k'
    · simp [mapErase, mapFind, hk]
    · simp [mapErase, mapFind, hk, ih]

lemma mapErase_fst_eq_zero_iff {V : Type} (k : Nat) (l : List (Nat × V)) :
    (mapErase k l).1 = 0 ↔ mapFind k l = none := by
  induction l with
  | nil => simp [mapErase, mapFind]
  | cons p rest ih =>
    obtain ⟨k', v'⟩ := p
    by_cases hk : k = k'
    · simp [mapErase, mapFind, hk]
    · simp [mapErase, mapFind, hk, ih]

lemma mapErase_zero_eq {V : Type} (k : Nat) (l : List (Nat × V))
    (h : (mapErase k l).1 = 0) : (mapErase k l).2 = l := by
  induction l with
  | nil => rfl
  | cons p rest ih =>
    obtain ⟨k', v'⟩ := p
    by_cases hk : k = k'
    · simp [mapErase, hk] at h
    · simp only [mapErase, if_neg hk] at h ⊢
      exact congrArg _ (ih h)

lemma mapErase_sublist {V : Type} (k : Nat) (l : List (Nat × V)) :
    (mapErase k l).2.Sublist l := by
  induction l with
  | nil => exact List.Sublist.refl _
  | cons p rest ih =>
    obtain ⟨k', v'⟩ := p
    by_cases hk : k = k'
    · simp only [mapErase, if_pos hk]
      exact List.sublist_cons_self _ _
    · simp only [mapErase, if_neg hk]
      exact ih.cons₂ _

lemma mapFind_eq_none_iff {V : Type} (k : Nat) (l : List (Nat × V)) :
    mapFind k l = none ↔ k ∉ l.map Prod.fst := by
  induction l with
  | nil => simp [mapFind]
  | cons p rest ih =>
    obtain ⟨k', v'⟩ := p
    by_cases hk : k = k' <;> simp [mapFind, hk, ih]

lemma mapFind_mapErase_self {V : Type} (k : Nat) (l : List (Nat × V))
    (h : (l.map Prod.fst).Nodup) : mapFind k (mapErase k l).2 = none := by
  induction l with
  | nil => rfl
  | cons p rest ih =>
    obtain ⟨k', v'⟩ := p
    simp only [List.map_cons, List.nodup_cons] at h
    by_cases hk : k = k'
    · subst hk
      simp only [mapErase, if_pos rfl]
      exact (mapFind_eq_none_iff k rest).2 h.1
    · simp only [mapErase, if_neg hk, mapFind, if_neg hk]
      exact ih h.2

lemma mapFind_mapErase_ne {V : Type} (k j : Nat) (l : List (Nat × V)) (h : k ≠ j) :
    mapFind k (mapErase j l).2 = mapFind k l := by
  induction l with
  | nil => rfl
  | cons p rest ih =>
    obtain ⟨k', v'⟩ := p
    by_cases hj : j = k'
    · subst hj
      simp [mapErase, mapFind, h]
    · by_cases hk : k = k' <;> simp [mapErase, hj, mapFind, hk, ih]

/-! ### Lemmas about the registry operations -/

lemma connect_some {F : Type} (s : signal_state F) (g : F) :
    signal_state.connect s (some g) =
      (.ok (s.last_id + 1),
       { last_id := s.last_id + 1,
         observers := mapEmplace (s.last_id + 1) g s.observers }) := rfl

/-- Below the wrap the idealized and the exact counter semantics coincide. -/
lemma connectU_eq_connect {F : Type} (s : signal_state F) (f : Option F)
    (h : s.last_id + 1 < USIZE) : s.connectU f = s.connect f := by
  cases f with
  | none => rfl
  | some g =>
      unfold signal_state.connectU signal_state.connect
      rw [Nat.mod_eq_of_lt h]

lemma disconnect_state {F : Type} (s : signal_state F) (i : Nat) :
    (signal_state.disconnect s i).2 = { s with observers := (mapErase i s.observers).2 } := by
  by_cases hc : (mapErase i s.observers).1 = 1 <;> simp [signal_state.disconnect, hc]

lemma disconnect_result {F : Type} (s : signal_state F) (i : Nat) :
    (signal_state.disconnect s i).1 =
      if (mapErase i s.observers).1 ≠ 1 then .error .invalidConnectionId else .ok () := by
  by_cases hc : (mapErase i s.observers).1 = 1 <;> simp [signal_state.disconnect, hc]

lemma WF_disconnect {F : Type} (s : signal_state F) (i : Nat) (h : WF s) :
    WF (signal_state.disconnect s i).2 := by
  rw [disconnect_state]
  have hsub : ((mapErase i s.observers).2.map Prod.fst).Sublist (s.observers.map Prod.fst) :=
    (mapErase_sublist i s.observers).map _
  constructor
  · exact List.Pairwise.sublist hsub h.1
  · intro k hk
    exact h.2 k (hsub.mem hk)

/-- Auxiliary: `connection::disconnect` is a no-op whenever `wstate.lock()`
fails. -/
lemma disconnect_lock_none {F : Type} (c : connection) (w : World F)
    (h : World.lock w c.wstate = none) : c.disconnect w = (.ok (), c, w) := by
  unfold connection.disconnect
  rw [h]

/-- Auxiliary: `connection::disconnect` when the weak pointer locks and the
registry-level disconnect succeeds: the connection self-clears. -/
lemma disconnect_locked_ok {F : Type} (c : connection) (w : World F) (r : Nat)
    (s s' : signal_state F) (hl : World.lock w c.wstate = some (r, s))
    (hq : signal_state.disconnect s c.id = (.ok (), s')) :
    c.disconnect w = (.ok (), { id := 0, wstate := none }, w.update r s') := by
  unfold connection.disconnect
  rw [hl]
  simp only [hq]

/-- Auxiliary: `connection::disconnect` when the weak pointer locks and the
registry-level disconnect throws: the exception propagates and the connection
is left unchanged. -/
lemma disconnect_locked_err {F : Type} (c : connection) (w : World F) (r : Nat)
    (s s' : signal_state F) (e' : SigError) (hl : World.lock w c.wstate = some (r, s))
    (hq : signal_state.disconnect s c.id = (.error e', s')) :
    c.disconnect w = (.error e', c, w.update r s') := by
  unfold connection.disconnect
  rw [hl]
  simp only [hq]

/-! ### Claim theorems -/

/-- C1: For every Connection whose referenced registry has already been
destroyed (the weak reference no longer resolves), `connection::disconnect()`
completes as a no-op: it raises no error and has no observable effect on any
registry (the world is returned unchanged). -/
theorem C1_dangling_registry_disconnect_noop {F : Type} (c : connection) (w : World F)
    (r : Nat) (h1 : c.wstate = some r) (h2 : w.find r = none) :
    c.disconnect w = (.ok (), c, w) := by
  apply disconnect_lock_none
  simp [World.lock, h1, h2]

/-- Witness for C1: a concrete connection to registry address 7, in a world
where only registry 0 is alive. -/
theorem C1_dangling_registry_disconnect_noop_witness :
    connection.disconnect (F := Nat) ⟨3, some 7⟩ ⟨[(0, ⟨0, []⟩)]⟩ =
      (.ok (), ⟨3, some 7⟩, ⟨[(0, ⟨0, []⟩)]⟩) :=
  C1_dangling_registry_disconnect_noop ⟨3, some 7⟩ ⟨[(0, ⟨0, []⟩)]⟩ 7 rfl rfl

/-- C2 counterexample: `connection::disconnect` CAN fail.  With a live
registry holding observer 1, take two copies of the connection `⟨1, some 0⟩`.
Disconnecting via the first copy succeeds; disconnecting via the second copy
(whose weak pointer still resolves and whose id is now stale) throws
`runtime_error("Invalid connection id.")` instead of being a no-op. -/
theorem C2_second_copy_disconnect_errors :
    (connection.disconnect (F := Nat) ⟨1, some 0⟩ ⟨[(0, ⟨1, [(1, 42)]⟩)]⟩).1 = .ok () ∧
    (connection.disconnect (F := Nat) ⟨1, some 0⟩
        (connection.disconnect (F := Nat) ⟨1, some 0⟩ ⟨[(0, ⟨1, [(1, 42)]⟩)]⟩).2.2).1 =
      .error .invalidConnectionId :=
  ⟨rfl, rfl⟩

/-- C2 (amended): `connection::disconnect` is idempotent on a single
Connection object: whenever a call returns successfully, calling disconnect
again on the resulting Connection in the resulting world is a no-op (no error,
nothing changes).  The original claim's further assertion — that disconnecting
once through each of two copies also makes the second call a no-op — is false:
the second copy's call throws not-found (see the counterexample). -/
theorem C2_disconnect_idempotent_after_success {F : Type} (c : connection) (w : World F)
    (h : (c.disconnect w).1 = .ok ()) :
    (c.disconnect w).2.1.disconnect (c.disconnect w).2.2 =
      (.ok (), (c.disconnect w).2.1, (c.disconnect w).2.2) := by
  cases hl : World.lock w c.wstate with
  | none =>
      have e : c.disconnect w = (.ok (), c, w) := disconnect_lock_none c w hl
      rw [e]
      exact e
  | some rs =>
      obtain ⟨r, s⟩ := rs
      rcases hq : signal_state.disconnect s c.id with ⟨res, s'⟩
      cases res with
      | error e' =>
          rw [disconnect_locked_err c w r s s' e' hl hq] at h
          simp at h
      | ok u =>
          cases u
          rw [disconnect_locked_ok c w r s s' hl hq]
          rfl

/-- Witness for C2 (amended): double disconnect through the same connection
value, on a live one-observer registry. -/
theorem C2_disconnect_idempotent_after_success_witness :
    (connection.disconnect (F := Nat) ⟨1, some 0⟩ ⟨[(0, ⟨1, [(1, 42)]⟩)]⟩).2.1.disconnect
        (connection.disconnect (F := Nat) ⟨1, some 0⟩ ⟨[(0, ⟨1, [(1, 42)]⟩)]⟩).2.2 =
      (.ok (), (connection.disconnect (F := Nat) ⟨1, some 0⟩ ⟨[(0, ⟨1, [(1, 42)]⟩)]⟩).2.1,
        (connection.disconnect (F := Nat) ⟨1, some 0⟩ ⟨[(0, ⟨1, [(1, 42)]⟩)]⟩).2.2) :=
  C2_disconnect_idempotent_after_success ⟨1, some 0⟩ ⟨[(0, ⟨1, [(1, 42)]⟩)]⟩ rfl

/-- C4 counterexample: after `connection::disconnect()` in which resolution of
the weak reference FAILED, the identifier is NOT reset to 0 and the weak
reference is NOT cleared — the whole body is inside `if (auto state =
wstate.lock())`, so a failed resolution changes nothing. -/
theorem C4_failed_resolution_does_not_clear :
    (connection.disconnect (F := Nat) ⟨5, some 7⟩ ⟨[]⟩).2.1.id = 5 ∧
    (connection.disconnect (F := Nat) ⟨5, some 7⟩ ⟨[]⟩).2.1.wstate = some 7 :=
  ⟨rfl, rfl⟩

/-- C4 (amended): the Connection resets its identifier to 0 and clears its
weak reference exactly when resolution succeeds AND the registry removal
succeeds; when resolution fails the Connection is left entirely unchanged
(and when removal throws, the clearing assignments are skipped).  Subsequent
disconnect calls are nevertheless no-ops in both no-throw cases: a cleared
connection is a no-op in every world, and an unresolvable connection stays
unresolvable in the unchanged world. -/
theorem C4_clearing_exactly_on_success {F : Type} (c : connection) (w : World F) :
    (World.lock w c.wstate = none →
      c.disconnect w = (.ok (), c, w) ∧
      (c.disconnect w).2.1.disconnect (c.disconnect w).2.2 =
        (.ok (), (c.disconnect w).2.1, (c.disconnect w).2.2)) ∧
    (∀ r s, World.lock w c.wstate = some (r, s) →
      ((signal_state.disconnect s c.id).1 = .ok () →
        (c.disconnect w).2.1 = { id := 0, wstate := none }) ∧
      ((signal_state.disconnect s c.id).1 ≠ .ok () → (c.disconnect w).2.1 = c)) ∧
    (∀ w' : World F,
      connection.disconnect { id := 0, wstate := none } w' =
        (.ok (), { id := 0, wstate := none }, w')) := by
  refine ⟨?_, ?_, ?_⟩
  · intro hl
    have e : c.disconnect w = (.ok (), c, w) := disconnect_lock_none c w hl
    refine ⟨e, ?_⟩
    rw [e]
    exact e
  · intro r s hl
    rcases hq : signal_state.disconnect s c.id with ⟨res, s'⟩
    cases res with
    | error e' =>
        constructor
        · intro hres
          simp at hres
        · intro _
          rw [disconnect_locked_err c w r s s' e' hl hq]
    | ok u =>
        cases u
        constructor
        · intro _
          rw [disconnect_locked_ok c w r s s' hl hq]
        · intro hres
          simp at hres
  · intro w'
    rfl

/-- Witness for C4 (amended): with an empty world, resolution of `⟨5, some 7⟩`
fails and the call is a no-op that leaves the connection unchanged. -/
theorem C4_clearing_exactly_on_success_witness :
    connection.disconnect (F := Nat) ⟨5, some 7⟩ ⟨[]⟩ = (.ok (), ⟨5, some 7⟩, ⟨[]⟩) :=
  ((C4_clearing_exactly_on_success (F := Nat) ⟨5, some 7⟩ ⟨[]⟩).1 rfl).1

/-- C3 counterexample: `signal::disconnect(con)` does NOT validate that the
connection's weak reference resolves to this emitter's registry.  Here the
connection references registry address 1, which no longer exists, so the
claim says the call must be a no-op; but the code forwards `con.id = 1` to
the emitter's own registry (address 0) and removes its observer — the world
changes. -/
theorem C3_emitter_disconnect_not_validating :
    (signal.disconnect (F := Nat) ⟨some 0⟩ ⟨1, some 1⟩ ⟨[(0, ⟨1, [(1, 42)]⟩)]⟩).1 = .ok () ∧
    (signal.disconnect (F := Nat) ⟨some 0⟩ ⟨1, some 1⟩ ⟨[(0, ⟨1, [(1, 42)]⟩)]⟩).2 ≠
      ⟨[(0, ⟨1, [(1, 42)]⟩)]⟩ :=
  ⟨rfl, by decide⟩

/-- C3 (amended): `signal::disconnect(con)` performs no validation of the
connection's weak reference — the `wstate` field is never read, so the result
is identical for any weak reference; the call unconditionally forwards
`con.id` to this emitter's own registry's `disconnect` (which throws
not-found when the identifier is absent there).  The dangling-registry no-op
belongs to `connection::disconnect`, not to the emitter's member. -/
theorem C3_emitter_disconnect_forwards_id {F : Type} (sig : signal) (con : connection)
    (w : World F) (ws : Option Nat) (r : Nat) (s : signal_state F)
    (h1 : sig.state = some r) (h2 : w.find r = some s) :
    signal.disconnect sig con w = signal.disconnect sig { id := con.id, wstate := ws } w ∧
    signal.disconnect sig con w =
      ((signal_state.disconnect s con.id).1,
       w.update r (signal_state.disconnect s con.id).2) := by
  constructor
  · rfl
  · unfold signal.disconnect
    simp only [h1, h2]

/-- Witness for C3 (amended): the emitter at registry 0 with one observer. -/
theorem C3_emitter_disconnect_forwards_id_witness :
    signal.disconnect (F := Nat) ⟨some 0⟩ ⟨1, some 1⟩ ⟨[(0, ⟨1, [(1, 42)]⟩)]⟩ =
      signal.disconnect (F := Nat) ⟨some 0⟩ ⟨1, none⟩ ⟨[(0, ⟨1, [(1, 42)]⟩)]⟩ ∧
    signal.disconnect (F := Nat) ⟨some 0⟩ ⟨1, some 1⟩ ⟨[(0, ⟨1, [(1, 42)]⟩)]⟩ =
      ((signal_state.disconnect (⟨1, [(1, 42)]⟩ : signal_state Nat) 1).1,
       World.update ⟨[(0, ⟨1, [(1, 42)]⟩)]⟩ 0
         (signal_state.disconnect (⟨1, [(1, 42)]⟩ : signal_state Nat) 1).2) :=
  C3_emitter_disconnect_forwards_id ⟨some 0⟩ ⟨1, some 1⟩ ⟨[(0, ⟨1, [(1, 42)]⟩)]⟩
    none 0 ⟨1, [(1, 42)]⟩ rfl rfl

/-- C5: for a well-formed registry with N observers, `emit` returns N, and the
invocation trace is exactly the N stored callbacks, each invoked once with the
given argument, in ascending-identifier (= map iteration = insertion) order;
for an empty registry it invokes nothing and returns 0. -/
theorem C5_emit_invokes_all_in_order {F A : Type} (s : signal_state F) (a : A) (h : WF s) :
    (s.emit a).2 = s.observers.length ∧
    (s.emit a).1 = s.observers.map (fun kv => (kv.1, kv.2, a)) ∧
    List.Sorted (· < ·) ((s.emit a).1.map (fun t => t.1)) ∧
    (s.observers = [] → s.emit a = ([], 0)) := by
  refine ⟨rfl, rfl, ?_, ?_⟩
  · have he : (s.emit a).1.map (fun t => t.1) = s.observers.map Prod.fst := by
      simp [signal_state.emit, List.map_map]
    rw [he]
    exact h.1
  · intro he
    simp [signal_state.emit, he]

/-- Witness for C5: a two-observer registry emitted with argument 5. -/
theorem C5_emit_invokes_all_in_order_witness :
    List.Sorted (· < ·)
      (((⟨2, [(1, 10), (2, 20)]⟩ : signal_state Nat).emit (5 : Nat)).1.map (fun t => t.1)) :=
  (C5_emit_invokes_all_in_order ⟨2, [(1, 10), (2, 20)]⟩ 5 (by decide)).2.2.1

/-- C7: registry-level `disconnect(identifier)` removes exactly the entry with
that identifier when present (all other entries and the counter are
untouched), and fails with not-found exactly when no such entry exists. -/
theorem C7_registry_disconnect_spec {F : Type} (s : signal_state F) (id : Nat) (h : WF s) :
    ((s.disconnect id).1 = .error .invalidConnectionId ↔ mapFind id s.observers = none) ∧
    mapFind id (s.disconnect id).2.observers = none ∧
    (∀ k, k ≠ id → mapFind k (s.disconnect id).2.observers = mapFind k s.observers) ∧
    (s.disconnect id).2.last_id = s.last_id := by
  have hnodup : (s.observers.map Prod.fst).Nodup := h.1.nodup
  refine ⟨⟨?_, ?_⟩, ?_, ?_, ?_⟩
  · intro he
    rw [disconnect_result] at he
    by_cases hc : (mapErase id s.observers).1 ≠ 1
    · exact (mapErase_fst_ne_one_iff id s.observers).1 hc
    · rw [if_neg hc] at he
      exact absurd he (by simp)
  · intro hn
    rw [disconnect_result, if_pos ((mapErase_fst_ne_one_iff id s.observers).2 hn)]
  · rw [disconnect_state]
    exact mapFind_mapErase_self id s.observers hnodup
  · intro k hk
    rw [disconnect_state]
    exact mapFind_mapErase_ne k id s.observers hk
  · rw [disconnect_state]

/-- Witness for C7: removing observer 1 from a two-observer registry. -/
theorem C7_registry_disconnect_spec_witness :
    mapFind 1 ((⟨2, [(1, 10), (2, 20)]⟩ : signal_state Nat).disconnect 1).2.observers = none :=
  (C7_registry_disconnect_spec (⟨2, [(1, 10), (2, 20)]⟩ : signal_state Nat) 1 (by decide)).2.1

/-! ### Unfolding equations for runOps -/

lemma runOps_connect_some {F A : Type} (s : signal_state F) (g : F) (rest : List (Op F A)) :
    runOps s (Op.connect (some g) :: rest) =
      ((runOps (signal_state.connectU s (some g)).2 rest).1,
       ((s.last_id + 1) % USIZE) :: (runOps (signal_state.connectU s (some g)).2 rest).2) := rfl

lemma runOps_connect_none {F A : Type} (s : signal_state F) (rest : List (Op F A)) :
    runOps s (Op.connect none :: rest) = runOps s rest := rfl

lemma runOps_disconnect {F A : Type} (s : signal_state F) (i : Nat) (rest : List (Op F A)) :
    runOps s (Op.disconnect i :: rest) = runOps (signal_state.disconnect s i).2 rest := rfl

lemma runOps_emit {F A : Type} (s : signal_state F) (a : A) (rest : List (Op F A)) :
    runOps s (Op.emit a :: rest) = runOps s rest := rfl

/-- Auxiliary: as long as the `size_t` counter cannot wrap during the
sequence (starting counter plus number of connects stays below `2^64`),
every identifier handed out exceeds the starting counter and the identifiers
are handed out in strictly increasing order. -/
lemma runOps_ids_increasing {F A : Type} (ops : List (Op F A)) (s : signal_state F)
    (h : s.last_id + numConnects ops < USIZE) :
    List.Sorted (· < ·) (runOps s ops).2 ∧ ∀ i ∈ (runOps s ops).2, s.last_id < i := by
  induction ops generalizing s with
  | nil =>
      refine ⟨List.sorted_nil, ?_⟩
      intro i hi
      simp [runOps] at hi
  | cons op rest ih =>
      cases op with
      | connect f =>
          cases f with
          | none =>
              rw [runOps_connect_none]
              exact ih s h
          | some g =>
              have hc : numConnects (Op.connect (some g) :: rest) = numConnects rest + 1 := rfl
              rw [hc] at h
              have hnw : s.last_id + 1 < USIZE := by omega
              have hmod : (s.last_id + 1) % USIZE = s.last_id + 1 := Nat.mod_eq_of_lt hnw
              have hlast : (signal_state.connectU s (some g)).2.last_id = s.last_id + 1 := hmod
              obtain ⟨ih1, ih2⟩ := ih (signal_state.connectU s (some g)).2 (by rw [hlast]; omega)
              rw [hlast] at ih2
              rw [runOps_connect_some, hmod]
              constructor
              · refine List.sorted_cons.2 ⟨?_, ih1⟩
                intro b hb
                have := ih2 b hb
                omega
              · intro i hi
                rcases List.mem_cons.1 hi with rfl | hi
                · omega
                · have := ih2 i hi
                  omega
      | disconnect j =>
          rw [runOps_disconnect]
          have hc : numConnects (Op.disconnect (F := F) (A := A) j :: rest) =
              numConnects rest := rfl
          rw [hc] at h
          have hlast : (signal_state.disconnect s j).2.last_id = s.last_id := by
            rw [disconnect_state]
          obtain ⟨ih1, ih2⟩ := ih (signal_state.disconnect s j).2 (by rw [hlast]; omega)
          rw [hlast] at ih2
          exact ⟨ih1, ih2⟩
      | emit a =>
          rw [runOps_emit]
          have hc : numConnects (Op.emit (F := F) a :: rest) = numConnects rest := rfl
          rw [hc] at h
          exact ih s (by omega)

/-- Auxiliary: running `n` consecutive connects yields the identifiers
`(last_id + 1) % 2^64, (last_id + 2) % 2^64, …, (last_id + n) % 2^64`. -/
lemma runOps_replicate_connect {F A : Type} (g : F) (n : Nat) (s : signal_state F) :
    (runOps (A := A) s (List.replicate n (Op.connect (some g)))).2 =
      (List.range n).map (fun k => (s.last_id + k + 1) % USIZE) := by
  induction n generalizing s with
  | zero => rfl
  | succ n ih =>
      rw [List.replicate_succ, runOps_connect_some, ih, List.range_succ_eq_map]
      have hlast : (signal_state.connectU s (some g)).2.last_id = (s.last_id + 1) % USIZE := rfl
      rw [hlast]
      simp only [List.map_cons, List.map_map, Nat.add_zero]
      refine congrArg _ (List.map_congr_left ?_)
      intro k _
      show ((s.last_id + 1) % USIZE + k + 1) % USIZE = (s.last_id + Nat.succ k + 1) % USIZE
      rw [Nat.add_assoc, Nat.mod_add_mod]
      have : s.last_id + 1 + (k + 1) = s.last_id + Nat.succ k + 1 := by omega
      rw [this]

/-- C8 counterexample: the identifier counter is a `size_t` and `++last_id`
wraps at `2^64`, so identifiers ARE reused over long enough sequences.
Running `2^64 + 1` connects on a fresh registry returns the identifiers
`1, 2, …, 2^64 - 1, 0, 1`: the list is not strictly increasing (it ends
`…, 0, 1` after `2^64 - 1`) and identifier 1 is issued twice. -/
theorem C8_wraparound_reuses_identifiers :
    ¬ List.Sorted (· < ·)
        (runOps (⟨0, []⟩ : signal_state Unit)
          ((List.replicate (USIZE + 1) (Op.connect (some ()))) : List (Op Unit Unit))).2 ∧
    ¬ (runOps (⟨0, []⟩ : signal_state Unit)
          ((List.replicate (USIZE + 1) (Op.connect (some ()))) : List (Op Unit Unit))).2.Nodup := by
  have hids : (runOps (⟨0, []⟩ : signal_state Unit)
      ((List.replicate (USIZE + 1) (Op.connect (some ()))) : List (Op Unit Unit))).2 =
      (List.range (USIZE + 1)).map (fun k => (k + 1) % USIZE) := by
    rw [runOps_replicate_connect]
    simp
  rw [hids]
  have husize : 1 < USIZE := by norm_num [USIZE]
  have hmod1 : 1 % USIZE = 1 := Nat.mod_eq_of_lt husize
  have hmodM : (USIZE + 1) % USIZE = 1 := by
    rw [Nat.add_mod_left]
    exact hmod1
  have hlen : ((List.range (USIZE + 1)).map (fun k => (k + 1) % USIZE)).length = USIZE + 1 := by
    rw [List.length_map, List.length_range]
  have h0 : 0 < ((List.range (USIZE + 1)).map (fun k => (k + 1) % USIZE)).length := by
    rw [hlen]; omega
  have hM : USIZE < ((List.range (USIZE + 1)).map (fun k => (k + 1) % USIZE)).length := by
    rw [hlen]; omega
  have hv0 : ((List.range (USIZE + 1)).map (fun k => (k + 1) % USIZE)).get ⟨0, h0⟩ = 1 := by
    rw [List.get_eq_getElem, List.getElem_map, List.getElem_range, Nat.zero_add]
    exact hmod1
  have hvM : ((List.range (USIZE + 1)).map (fun k => (k + 1) % USIZE)).get ⟨USIZE, hM⟩ = 1 := by
    rw [List.get_eq_getElem, List.getElem_map, List.getElem_range]
    exact hmodM
  constructor
  · intro hs
    have hlt : (⟨0, h0⟩ : Fin _) < (⟨USIZE, hM⟩ : Fin _) := by
      rw [Fin.mk_lt_mk]
      omega
    have := hs.rel_get_of_lt hlt
    rw [hv0, hvM] at this
    exact Nat.lt_irrefl 1 this
  · intro hn
    have heq := (hn.get_inj_iff).1 (hv0.trans hvM.symm)
    have : (0 : Nat) = USIZE := congrArg Fin.val heq
    omega

/-- C8 (amended): within one registry's lifetime, the identifiers returned by
the successful `connect` calls of any sequence of connect/disconnect/emit
operations starting from a fresh registry are strictly increasing (each
strictly greater than every earlier one) and never reused, PROVIDED the
sequence performs fewer than `2^64` connects, so that the `size_t` counter
`++last_id` cannot wrap; once the counter wraps, identifiers repeat (see the
counterexample). -/
theorem C8_identifiers_strictly_increasing_before_wrap {F A : Type} (ops : List (Op F A))
    (h : numConnects ops < USIZE) :
    List.Sorted (· < ·) (runOps (⟨0, []⟩ : signal_state F) ops).2 ∧
    (runOps (⟨0, []⟩ : signal_state F) ops).2.Nodup := by
  obtain ⟨h1, _⟩ := runOps_ids_increasing ops ⟨0, []⟩ (by simpa using h)
  exact ⟨h1, h1.nodup⟩

/-- Witness for C8 (amended): a four-operation sequence with two connects. -/
theorem C8_identifiers_strictly_increasing_before_wrap_witness :
    List.Sorted (· < ·)
      (runOps (⟨0, []⟩ : signal_state Nat)
        [Op.connect (some 7), Op.disconnect 1, Op.connect (some 8), Op.emit (0 : Nat)]).2 ∧
    (runOps (⟨0, []⟩ : signal_state Nat)
        [Op.connect (some 7), Op.disconnect 1, Op.connect (some 8), Op.emit (0 : Nat)]).2.Nodup :=
  C8_identifiers_strictly_increasing_before_wrap
    [Op.connect (some 7), Op.disconnect 1, Op.connect (some 8), Op.emit (0 : Nat)]
    (by decide)

/-- C9: slot move-construction transfers the held connection and leaves the
source holding the empty connection; destroying the moved-from source is a
no-op in every world (it cannot disconnect the transferred subscription);
move-assignment first disconnects the connection the target currently holds
(the resulting world is exactly the world after that disconnect) and, when
that disconnect does not throw, adopts the source's connection and empties
the source. -/
theorem C9_slot_move_semantics {F : Type} (t o : slot) (w : World F) :
    slot.moveCtor o = ({ conn := o.conn }, { conn := connection.empty }) ∧
    slot.dtor (slot.moveCtor o).2 w = (.ok (), w) ∧
    (slot.moveAssign t o w).2.2.2 = (slot.disconnect t w).2.2 ∧
    ((slot.disconnect t w).1 = .ok () →
      (slot.moveAssign t o w).2.1 = { conn := o.conn } ∧
      (slot.moveAssign t o w).2.2.1 = { conn := connection.empty } ∧
      slot.dtor { conn := connection.empty } w = (.ok (), w)) := by
  refine ⟨rfl, rfl, ?_, ?_⟩
  · unfold slot.moveAssign
    rcases hp : slot.disconnect t w with ⟨res, t', w'⟩
    cases res <;> rfl
  · intro hok
    unfold slot.moveAssign
    rcases hp : slot.disconnect t w with ⟨res, t', w'⟩
    rw [hp] at hok
    have hres : res = .ok () := hok
    cases hres
    exact ⟨rfl, rfl, rfl⟩

/-- Witness for C9: target slot holding observer 1 of the live registry 0,
source slot holding observer 2. -/
theorem C9_slot_move_semantics_witness :
    (slot.moveAssign (F := Nat) ⟨⟨1, some 0⟩⟩ ⟨⟨2, some 0⟩⟩
        ⟨[(0, ⟨2, [(1, 10), (2, 20)]⟩)]⟩).2.1 = { conn := ⟨2, some 0⟩ } ∧
    (slot.moveAssign (F := Nat) ⟨⟨1, some 0⟩⟩ ⟨⟨2, some 0⟩⟩
        ⟨[(0, ⟨2, [(1, 10), (2, 20)]⟩)]⟩).2.2.1 = { conn := connection.empty } ∧
    slot.dtor (F := Nat) { conn := connection.empty } ⟨[(0, ⟨2, [(1, 10), (2, 20)]⟩)]⟩ =
      (.ok (), ⟨[(0, ⟨2, [(1, 10), (2, 20)]⟩)]⟩) :=
  (C9_slot_move_semantics ⟨⟨1, some 0⟩⟩ ⟨⟨2, some 0⟩⟩
    ⟨[(0, ⟨2, [(1, 10), (2, 20)]⟩)]⟩).2.2.2 rfl

/-- C10: failed registry operations are atomic — when `connect` throws
invalid-argument or `disconnect` throws not-found, the counter and the entries
map are exactly as before the call. -/
theorem C10_failed_ops_leave_state_unchanged {F : Type} (s : signal_state F) :
    (∀ (f : Option F) (e : SigError), (s.connect f).1 = .error e → (s.connect f).2 = s) ∧
    (∀ (id : Nat) (e : SigError), (s.disconnect id).1 = .error e → (s.disconnect id).2 = s) := by
  constructor
  · intro f e he
    cases f with
    | none => rfl
    | some g =>
        rw [connect_some] at he
        simp at he
  · intro id e he
    rw [disconnect_result] at he
    rw [disconnect_state]
    by_cases hc : (mapErase id s.observers).1 ≠ 1
    · have h0 : (mapErase id s.observers).1 = 0 :=
        (mapErase_fst_eq_zero_iff id s.observers).2
          ((mapErase_fst_ne_one_iff id s.observers).1 hc)
      rw [mapErase_zero_eq id s.observers h0]
    · rw [if_neg hc] at he
      exact absurd he (by simp)

/-- Witness for C10: connecting the empty callback and disconnecting an absent
identifier both fail and leave the registry `⟨1, [(1, 5)]⟩` unchanged. -/
theorem C10_failed_ops_leave_state_unchanged_witness :
    ((⟨1, [(1, 5)]⟩ : signal_state Nat).connect none).2 = ⟨1, [(1, 5)]⟩ ∧
    ((⟨1, [(1, 5)]⟩ : signal_state Nat).disconnect 9).2 = ⟨1, [(1, 5)]⟩ :=
  ⟨(C10_failed_ops_leave_state_unchanged ⟨1, [(1, 5)]⟩).1 none .invalidArgument rfl,
   (C10_failed_ops_leave_state_unchanged ⟨1, [(1, 5)]⟩).2 9 .invalidConnectionId rfl⟩

end Rsig
